import Mathlib

/-!
Shallow embedding of the Teaclave task-lifecycle core
(`src/types/src/task_state.rs`).

`TaskState` is the persisted record; the seven phase views
(Create, Assign, Approve, Stage, Run, Finish, Done) are modelled by a
`Phase` index, with each Rust method embedded as a function on
`TaskState` (mutation through `&mut self` becomes explicit state
passing: an operation returns the post-call state together with its
`Result`).  Companion types that live outside the provided sources
(`UserList`, `TaskFileOwners`, `TaskFiles`, `Function`, the file
records) are modelled from the spec, as marked on each definition.
-/

abbrev UserID := String

/-- `UserList`: an unordered set of `UserID` (modelled from the spec:
"An unordered set of UserID. Supports insert, membership, equality, and
n-ary union"). -/
abbrev UserList := Finset UserID

/-- Modelled from the spec: `UserList::unions`, the n-ary union used by
`Task::<Create>::new` to gather participants. -/
def UserList.unions (ls : List UserList) : UserList :=
  ls.foldr (fun a b => a ∪ b) ∅

/-- The `TaskStatus` enumeration (modelled from the spec: "A closed
enumeration: Created, DataAssigned, Approved, Staged, Running, Finished,
Failed"); the type itself is declared outside the provided sources. -/
inductive TaskStatus where
  | Created
  | DataAssigned
  | Approved
  | Staged
  | Running
  | Finished
  | Failed
deriving DecidableEq

/-- Modelled from the spec: "TaskResult. Either Unset, or an outcome
carrying either success payload or a failure description. Default is
Unset." -/
inductive TaskResult where
  | Unset
  | Ok (payload : String)
  | Err (description : String)
deriving DecidableEq

/-- Modelled from the spec: a concrete input-file record; only the
owner set and an identity (used by `external_id` in error messages)
matter to the task core. -/
structure TeaclaveInputFile where
  url : String
  uuid : Nat
  owner : UserList
deriving DecidableEq

/-- Modelled from the spec: a concrete output-file record; carries an
optional CMAC authentication tag attached during Finish. -/
structure TeaclaveOutputFile where
  url : String
  uuid : Nat
  cmac : Option String
  owner : UserList
deriving DecidableEq

def TeaclaveInputFile.external_id (f : TeaclaveInputFile) : String :=
  "input-file-" ++ toString f.uuid

def TeaclaveOutputFile.external_id (f : TeaclaveOutputFile) : String :=
  "output-file-" ++ toString f.uuid

/-- `TaskFileOwners`: mapping from parameter name to declared owner set
(modelled from the spec; association list with first-key lookup). -/
abbrev TaskFileOwners := List (String × UserList)

/-- `TaskFiles<T>`: mapping from parameter name to a bound file record
(modelled from the spec; association list with first-key lookup). -/
abbrev TaskFiles (α : Type) := List (String × α)

/-- First-match lookup in an association list keyed by `String`
(the embedding of `HashMap` name lookup). -/
def lookupName {α : Type} (fname : String) : List (String × α) → Option α
  | [] => none
  | (k, v) :: rest => if k = fname then some v else lookupName fname rest

/-- The key set of a name-keyed map, as compared with
`HashSet<&String>` equality in the source. -/
def keySet {α : Type} (m : List (String × α)) : Finset String :=
  (m.map Prod.fst).toFinset

/-- Modelled from the spec: `TaskFileOwners::all_owners`, the "union
across values" of the ownership declaration. -/
def TaskFileOwners.all_owners (m : TaskFileOwners) : UserList :=
  UserList.unions (m.map Prod.snd)

/-- Modelled from the spec: `TaskFileOwners::check(name, owners)`
"fails if the name is absent or the supplied file's owner-set is not
equal to the declared owner-set for that name". -/
def TaskFileOwners.check (m : TaskFileOwners) (fname : String) (owners : UserList) :
    Except String Unit :=
  match lookupName fname m with
  | some declared =>
      if declared = owners then Except.ok () else Except.error ("Assign: file ownership mismatch. " ++ fname)
  | none => Except.error ("Assign: file name not declared. " ++ fname)

/-- Modelled from the spec: `TaskFiles::assign(name, file)` "fails if
`name` is already bound — single-assignment". -/
def TaskFiles.assign {α : Type} (m : TaskFiles α) (fname : String) (file : α) :
    Except String (TaskFiles α) :=
  match lookupName fname m with
  | some _ => Except.error ("Assign: file name already assigned. " ++ fname)
  | none => Except.ok ((fname, file) :: m)

/-- Modelled from the spec: `TaskFiles::update_cmac(name, tag)`
"attaches an authentication tag to the named output file and fails if
the name is unbound". -/
def TaskFiles.update_cmac (m : TaskFiles TeaclaveOutputFile) (fname : String) (tag : String) :
    Except String (TaskFiles TeaclaveOutputFile) :=
  match lookupName fname m with
  | some _ =>
      Except.ok (m.map (fun p => if p.1 = fname then (p.1, { p.2 with cmac := some tag }) else p))
  | none => Except.error ("Finish: file name not assigned. " ++ fname)

/-- The function descriptor (modelled from the spec: "immutable record
with: identifier, owner, visibility (public/private), declared argument
names, declared input parameter names, declared output parameter names,
executor-type, display name, payload").  The source reads
`function.inputs.iter().map(|f| &f.name)`; we keep the name lists
directly. -/
structure Function where
  id : Nat
  name : String
  payload : String
  public : Bool
  owner : UserID
  executor_type : String
  arguments : List String
  inputs : List String
  outputs : List String
deriving DecidableEq

/-- Modelled from the spec: `ExternalID` is "a stable, prefixed string
id"; `function.external_id()` produces it from the function identity. -/
def Function.external_id (f : Function) : String :=
  "function-" ++ toString f.id

/-- `FunctionArguments`: the name-to-value mapping supplied by the
creator (modelled from the spec; only its key set matters here). -/
abbrev FunctionArguments := List (String × String)

/-- The canonical persisted record (`TaskState` in
`src/types/src/task_state.rs`). -/
structure TaskState where
  task_id : Nat
  creator : UserID
  function_id : String
  function_arguments : FunctionArguments
  executor : String
  inputs_ownership : TaskFileOwners
  outputs_ownership : TaskFileOwners
  function_owner : UserID
  participants : UserList
  approved_users : UserList
  assigned_inputs : TaskFiles TeaclaveInputFile
  assigned_outputs : TaskFiles TeaclaveOutputFile
  result : TaskResult
  status : TaskStatus
deriving DecidableEq

/-- `TaskState::everyone_approved`: "Single user task is by default
approved by the creator". -/
def TaskState.everyone_approved (ts : TaskState) : Bool :=
  decide (ts.participants.card = 1) || decide (ts.participants = ts.approved_users)

/-- `TaskState::all_data_assigned`: key-set equality of each ownership
declaration against the assigned files. -/
def TaskState.all_data_assigned (ts : TaskState) : Bool :=
  decide (keySet ts.inputs_ownership = keySet ts.assigned_inputs) &&
    decide (keySet ts.outputs_ownership = keySet ts.assigned_outputs)

/-- `TaskState::has_participant`. -/
def TaskState.has_participant (ts : TaskState) (user_id : UserID) : Bool :=
  decide (user_id ∈ ts.participants)

/-- `TaskState::has_creator`. -/
def TaskState.has_creator (ts : TaskState) (user_id : UserID) : Bool :=
  decide (ts.creator = user_id)

/-- The `StagedTask` dispatch record built by
`Task::<Stage>::stage_for_running`. -/
structure StagedTask where
  task_id : Nat
  executor : String
  executor_type : String
  function_id : Nat
  function_name : String
  function_payload : String
  function_arguments : FunctionArguments
  input_data : TaskFiles TeaclaveInputFile
  output_data : TaskFiles TeaclaveOutputFile
deriving DecidableEq

/-- The seven typed view kinds (the `StateTag` types of the source). -/
inductive Phase where
  | Create
  | Assign
  | Approve
  | Stage
  | Run
  | Finish
  | Done
deriving DecidableEq

/-- The `From<tag> for TaskStatus` impls: the canonical status written
for a view's tag. -/
def Phase.toStatus : Phase → TaskStatus
  | .Create => .Created
  | .Assign => .Created
  | .Approve => .DataAssigned
  | .Stage => .Approved
  | .Run => .Staged
  | .Finish => .Running
  | .Done => .Finished

/-- `Task::<Create>::new`.  `Uuid::new_v4()` is nondeterministic in the
source; the fresh id is taken as the explicit argument `task_id`. -/
def TaskCreate.new (task_id : Nat) (requester : UserID) (req_executor : String)
    (req_func_args : FunctionArguments) (req_input_owners req_output_owners : TaskFileOwners)
    (function : Function) : Except String TaskState :=
  let input_owners := TaskFileOwners.all_owners req_input_owners
  let output_owners := TaskFileOwners.all_owners req_output_owners
  let participants0 := UserList.unions [input_owners, output_owners]
  let participants1 := insert requester participants0
  let participants :=
    if function.public then participants1 else insert function.owner participants1
  if ¬ (function.arguments.toFinset = keySet req_func_args) then
    Except.error "function_arguments mismatch"
  else if ¬ (function.inputs.toFinset = keySet req_input_owners) then
    Except.error "input keys mismatch"
  else if ¬ (function.outputs.toFinset = keySet req_output_owners) then
    Except.error "output keys mismatch"
  else
    Except.ok
      { task_id := task_id
        creator := requester
        function_id := Function.external_id function
        function_arguments := req_func_args
        executor := req_executor
        inputs_ownership := req_input_owners
        outputs_ownership := req_output_owners
        function_owner := function.owner
        participants := participants
        approved_users := ∅
        assigned_inputs := []
        assigned_outputs := []
        result := TaskResult.Unset
        status := TaskStatus.Created }

/-- `Task::<Assign>::assign_input`; `&mut self` becomes explicit state
passing, so the call returns the post-call state next to its result. -/
def TaskAssign.assign_input (ts : TaskState) (requester : UserID) (fname : String)
    (file : TeaclaveInputFile) : TaskState × Except String Unit :=
  if requester ∈ file.owner then
    match TaskFileOwners.check ts.inputs_ownership fname file.owner with
    | Except.error e => (ts, Except.error e)
    | Except.ok () =>
        match TaskFiles.assign ts.assigned_inputs fname file with
        | Except.error e => (ts, Except.error e)
        | Except.ok m => ({ ts with assigned_inputs := m }, Except.ok ())
  else
    (ts, Except.error
      ("Assign: requester is not in the owner list. " ++ file.external_id ++ "."))

/-- `Task::<Assign>::assign_output`. -/
def TaskAssign.assign_output (ts : TaskState) (requester : UserID) (fname : String)
    (file : TeaclaveOutputFile) : TaskState × Except String Unit :=
  if requester ∈ file.owner then
    match TaskFileOwners.check ts.outputs_ownership fname file.owner with
    | Except.error e => (ts, Except.error e)
    | Except.ok () =>
        match TaskFiles.assign ts.assigned_outputs fname file with
        | Except.error e => (ts, Except.error e)
        | Except.ok m => ({ ts with assigned_outputs := m }, Except.ok ())
  else
    (ts, Except.error
      ("Assign: requester is not in the owner list. " ++ file.external_id ++ "."))

/-- `Task::<Approve>::approve`. -/
def TaskApprove.approve (ts : TaskState) (requester : UserID) :
    TaskState × Except String Unit :=
  if requester ∈ ts.participants then
    ({ ts with approved_users := insert requester ts.approved_users }, Except.ok ())
  else
    (ts, Except.error ("Unexpected user trying to approve a task: " ++ requester))

/-- `Task::<Stage>::stage_for_running`.  Note the source's error string
reads "creater". -/
def TaskStage.stage_for_running (ts : TaskState) (requester : UserID)
    (function : Function) : TaskState × Except String StagedTask :=
  if ts.creator = requester then
    (ts, Except.ok
      { task_id := ts.task_id
        executor := ts.executor
        executor_type := function.executor_type
        function_id := function.id
        function_name := function.name
        function_payload := function.payload
        function_arguments := ts.function_arguments
        input_data := ts.assigned_inputs
        output_data := ts.assigned_outputs })
  else
    (ts, Except.error "Requestor is not the task creater")

/-- `Task::<Finish>::update_output_cmac`. -/
def TaskFinish.update_output_cmac (ts : TaskState) (fname : String) (auth_tag : String) :
    TaskState × Except String Unit :=
  match TaskFiles.update_cmac ts.assigned_outputs fname auth_tag with
  | Except.error e => (ts, Except.error e)
  | Except.ok m => ({ ts with assigned_outputs := m }, Except.ok ())

/-- `Task::<Finish>::update_result`. -/
def TaskFinish.update_result (ts : TaskState) (result : TaskResult) :
    TaskState × Except String Unit :=
  ({ ts with result := result }, Except.ok ())

/-- `Task::<Done>::new`: unconditionally wraps the given state. -/
def TaskDone.new (ts : TaskState) : Except String TaskState :=
  Except.ok ts

/-- `TryFrom<Task<Assign>> for Task<Approve>`. -/
def assignToApprove (ts : TaskState) : Except String TaskState :=
  if ts.all_data_assigned then Except.ok ts
  else Except.error "Not ready: Assign -> Approve"

/-- `TryFrom<Task<Approve>> for Task<Stage>`.  Note the source's error
string reads "Apporve". -/
def approveToStage (ts : TaskState) : Except String TaskState :=
  if ts.everyone_approved then Except.ok ts
  else Except.error "Not ready: Apporve -> Stage"

/-- `TryFrom<Task<Stage>> for Task<Run>`: unconditional. -/
def stageToRun (ts : TaskState) : Except String TaskState :=
  Except.ok ts

/-- `TryFrom<Task<Run>> for Task<Finish>`: unconditional. -/
def runToFinish (ts : TaskState) : Except String TaskState :=
  Except.ok ts

/-- `TryFrom<Task<Finish>> for Task<Done>`: unconditional. -/
def finishToDone (ts : TaskState) : Except String TaskState :=
  Except.ok ts

/-- `TryFrom<TaskState> for Task<Assign>` (note the source string's
trailing space). -/
def restoreAssign (ts : TaskState) : Except String TaskState :=
  match ts.status with
  | TaskStatus.Created => Except.ok ts
  | _ => Except.error "Cannot restore to Assign from saved state "

/-- `TryFrom<TaskState> for Task<Approve>`. -/
def restoreApprove (ts : TaskState) : Except String TaskState :=
  match ts.status with
  | TaskStatus.Created => do
      let t ← restoreAssign ts
      assignToApprove t
  | TaskStatus.DataAssigned => Except.ok ts
  | _ => Except.error "Cannot restore to Approve from saved state"

/-- `TryFrom<TaskState> for Task<Stage>`. -/
def restoreStage (ts : TaskState) : Except String TaskState :=
  match ts.status with
  | TaskStatus.Created | TaskStatus.DataAssigned => do
      let t ← restoreApprove ts
      approveToStage t
  | TaskStatus.Approved => Except.ok ts
  | _ => Except.error "Cannot restore to Stage from saved state"

/-- `TryFrom<TaskState> for Task<Run>`. -/
def restoreRun (ts : TaskState) : Except String TaskState :=
  match ts.status with
  | TaskStatus.Staged => Except.ok ts
  | _ => Except.error "Cannot restore to Run from saved state"

/-- `TryFrom<TaskState> for Task<Finish>`. -/
def restoreFinish (ts : TaskState) : Except String TaskState :=
  match ts.status with
  | TaskStatus.Running => Except.ok ts
  | _ => Except.error "Cannot restore to Finish from saved state"

/-- `From<Task<Create>> for TaskState`. -/
def persistCreate (ts : TaskState) : TaskState :=
  { ts with status := TaskStatus.Created }

/-- `From<Task<Assign>> for TaskState`: try to advance to Approve; on
success persist the destination tag's status, otherwise the own tag's. -/
def persistAssign (ts : TaskState) : TaskState :=
  match assignToApprove ts with
  | Except.ok t => { t with status := Phase.toStatus Phase.Approve }
  | Except.error _ => { ts with status := Phase.toStatus Phase.Assign }

/-- `From<Task<Approve>> for TaskState`. -/
def persistApprove (ts : TaskState) : TaskState :=
  match approveToStage ts with
  | Except.ok t => { t with status := Phase.toStatus Phase.Stage }
  | Except.error _ => { ts with status := Phase.toStatus Phase.Approve }

/-- `From<Task<Stage>> for TaskState`. -/
def persistStage (ts : TaskState) : TaskState :=
  match stageToRun ts with
  | Except.ok t => { t with status := Phase.toStatus Phase.Run }
  | Except.error _ => { ts with status := Phase.toStatus Phase.Stage }

/-- `From<Task<Run>> for TaskState`. -/
def persistRun (ts : TaskState) : TaskState :=
  match runToFinish ts with
  | Except.ok t => { t with status := Phase.toStatus Phase.Finish }
  | Except.error _ => { ts with status := Phase.toStatus Phase.Run }

/-- `From<Task<Finish>> for TaskState`. -/
def persistFinish (ts : TaskState) : TaskState :=
  match finishToDone ts with
  | Except.ok t => { t with status := Phase.toStatus Phase.Done }
  | Except.error _ => { ts with status := Phase.toStatus Phase.Finish }

instance {ε α : Type} [DecidableEq ε] [DecidableEq α] : DecidableEq (Except ε α) :=
  fun a b =>
    match a, b with
    | Except.ok x, Except.ok y =>
        if h : x = y then Decidable.isTrue (by rw [h])
        else Decidable.isFalse (by intro hc; injection hc; contradiction)
    | Except.error x, Except.error y =>
        if h : x = y then Decidable.isTrue (by rw [h])
        else Decidable.isFalse (by intro hc; injection hc; contradiction)
    | Except.ok _, Except.error _ => Decidable.isFalse (by intro hc; cases hc)
    | Except.error _, Except.ok _ => Decidable.isFalse (by intro hc; cases hc)

/-- A configuration of the lifecycle: either a live typed view
(`Task<φ>` wrapping a state) or a persisted `TaskState`. -/
inductive Conf where
  | view (φ : Phase) (ts : TaskState)
  | saved (ts : TaskState)

/-- The state wrapped by a configuration. -/
def Conf.stateOf : Conf → TaskState
  | .view _ ts => ts
  | .saved ts => ts

/-- One in-view step: a phase operation (possibly failing: a failed
call keeps the state returned next to its error) or a forward view
conversion. -/
inductive ViewStep : Phase → TaskState → Phase → TaskState → Prop where
  | assignInput (ts : TaskState) (r : UserID) (fname : String) (file : TeaclaveInputFile) :
      ViewStep Phase.Assign ts Phase.Assign (TaskAssign.assign_input ts r fname file).1
  | assignOutput (ts : TaskState) (r : UserID) (fname : String) (file : TeaclaveOutputFile) :
      ViewStep Phase.Assign ts Phase.Assign (TaskAssign.assign_output ts r fname file).1
  | approve (ts : TaskState) (r : UserID) :
      ViewStep Phase.Approve ts Phase.Approve (TaskApprove.approve ts r).1
  | stage (ts : TaskState) (r : UserID) (g : Function) :
      ViewStep Phase.Stage ts Phase.Stage (TaskStage.stage_for_running ts r g).1
  | updateCmac (ts : TaskState) (fname : String) (tag : String) :
      ViewStep Phase.Finish ts Phase.Finish (TaskFinish.update_output_cmac ts fname tag).1
  | updateResult (ts : TaskState) (res : TaskResult) :
      ViewStep Phase.Finish ts Phase.Finish (TaskFinish.update_result ts res).1
  | toApprove (ts ts' : TaskState) : assignToApprove ts = Except.ok ts' →
      ViewStep Phase.Assign ts Phase.Approve ts'
  | toStage (ts ts' : TaskState) : approveToStage ts = Except.ok ts' →
      ViewStep Phase.Approve ts Phase.Stage ts'
  | toRun (ts ts' : TaskState) : stageToRun ts = Except.ok ts' →
      ViewStep Phase.Stage ts Phase.Run ts'
  | toFinish (ts ts' : TaskState) : runToFinish ts = Except.ok ts' →
      ViewStep Phase.Run ts Phase.Finish ts'
  | toDone (ts ts' : TaskState) : finishToDone ts = Except.ok ts' →
      ViewStep Phase.Finish ts Phase.Done ts'

/-- Every configuration reachable from a `Task::<Create>::new` call
that used the function descriptor `f`: in-view operations, forward
conversions, persistence (the `From<Task<_>> for TaskState` impls —
there is none for `Done`), and restoration (the
`TryFrom<TaskState> for Task<_>` impls, with `Task::<Done>::new` for
the Done view). -/
inductive Reach (f : Function) : Conf → Prop where
  | created (uid : Nat) (r : UserID) (ex : String) (args : FunctionArguments)
      (iow oow : TaskFileOwners) (ts : TaskState) :
      TaskCreate.new uid r ex args iow oow f = Except.ok ts →
      Reach f (Conf.view Phase.Create ts)
  | vstep (φ φ' : Phase) (ts ts' : TaskState) :
      Reach f (Conf.view φ ts) → ViewStep φ ts φ' ts' → Reach f (Conf.view φ' ts')
  | pCreate (ts : TaskState) :
      Reach f (Conf.view Phase.Create ts) → Reach f (Conf.saved (persistCreate ts))
  | pAssign (ts : TaskState) :
      Reach f (Conf.view Phase.Assign ts) → Reach f (Conf.saved (persistAssign ts))
  | pApprove (ts : TaskState) :
      Reach f (Conf.view Phase.Approve ts) → Reach f (Conf.saved (persistApprove ts))
  | pStage (ts : TaskState) :
      Reach f (Conf.view Phase.Stage ts) → Reach f (Conf.saved (persistStage ts))
  | pRun (ts : TaskState) :
      Reach f (Conf.view Phase.Run ts) → Reach f (Conf.saved (persistRun ts))
  | pFinish (ts : TaskState) :
      Reach f (Conf.view Phase.Finish ts) → Reach f (Conf.saved (persistFinish ts))
  | rAssign (ts ts' : TaskState) :
      Reach f (Conf.saved ts) → restoreAssign ts = Except.ok ts' →
      Reach f (Conf.view Phase.Assign ts')
  | rApprove (ts ts' : TaskState) :
      Reach f (Conf.saved ts) → restoreApprove ts = Except.ok ts' →
      Reach f (Conf.view Phase.Approve ts')
  | rStage (ts ts' : TaskState) :
      Reach f (Conf.saved ts) → restoreStage ts = Except.ok ts' →
      Reach f (Conf.view Phase.Stage ts')
  | rRun (ts ts' : TaskState) :
      Reach f (Conf.saved ts) → restoreRun ts = Except.ok ts' →
      Reach f (Conf.view Phase.Run ts')
  | rFinish (ts ts' : TaskState) :
      Reach f (Conf.saved ts) → restoreFinish ts = Except.ok ts' →
      Reach f (Conf.view Phase.Finish ts')
  | rDone (ts ts' : TaskState) :
      Reach f (Conf.saved ts) → TaskDone.new ts = Except.ok ts' →
      Reach f (Conf.view Phase.Done ts')

theorem UserList.unions_pair (a b : UserList) : UserList.unions [a, b] = a ∪ b := by
  simp [UserList.unions]

theorem TaskCreate.new_ok_eq (uid : Nat) (r : UserID) (ex : String)
    (args : FunctionArguments) (iow oow : TaskFileOwners) (f : Function) (ts : TaskState)
    (h : TaskCreate.new uid r ex args iow oow f = Except.ok ts) :
    ts = { task_id := uid, creator := r, function_id := Function.external_id f,
           function_arguments := args, executor := ex, inputs_ownership := iow,
           outputs_ownership := oow, function_owner := f.owner,
           participants :=
             (if f.public then
                insert r (UserList.unions
                  [TaskFileOwners.all_owners iow, TaskFileOwners.all_owners oow])
              else
                insert f.owner (insert r (UserList.unions
                  [TaskFileOwners.all_owners iow, TaskFileOwners.all_owners oow]))),
           approved_users := ∅, assigned_inputs := [], assigned_outputs := [],
           result := TaskResult.Unset, status := TaskStatus.Created } := by
  simp only [TaskCreate.new] at h
  split at h
  · exact absurd h (by simp)
  · split at h
    · exact absurd h (by simp)
    · split at h
      · exact absurd h (by simp)
      · injection h with h
        exact h.symm

theorem assign_input_fst (ts : TaskState) (r : UserID) (fname : String)
    (file : TeaclaveInputFile) :
    (TaskAssign.assign_input ts r fname file).1 = ts ∨
    ∃ m, (TaskAssign.assign_input ts r fname file).1 = { ts with assigned_inputs := m } := by
  unfold TaskAssign.assign_input
  by_cases hro : r ∈ file.owner
  · rcases hc : TaskFileOwners.check ts.inputs_ownership fname file.owner with e | u
    · simp [hro, hc]
    · rcases ha : TaskFiles.assign ts.assigned_inputs fname file with e | m
      · simp [hro, hc, ha]
      · right
        exact ⟨m, by simp [hro, hc, ha]⟩
  · simp [hro]

theorem assign_output_fst (ts : TaskState) (r : UserID) (fname : String)
    (file : TeaclaveOutputFile) :
    (TaskAssign.assign_output ts r fname file).1 = ts ∨
    ∃ m, (TaskAssign.assign_output ts r fname file).1 = { ts with assigned_outputs := m } := by
  unfold TaskAssign.assign_output
  by_cases hro : r ∈ file.owner
  · rcases hc : TaskFileOwners.check ts.outputs_ownership fname file.owner with e | u
    · simp [hro, hc]
    · rcases ha : TaskFiles.assign ts.assigned_outputs fname file with e | m
      · simp [hro, hc, ha]
      · right
        exact ⟨m, by simp [hro, hc, ha]⟩
  · simp [hro]

theorem approve_fst (ts : TaskState) (r : UserID) :
    (TaskApprove.approve ts r).1 = ts ∨
    (r ∈ ts.participants ∧
      (TaskApprove.approve ts r).1 = { ts with approved_users := insert r ts.approved_users }) := by
  unfold TaskApprove.approve
  by_cases h : r ∈ ts.participants
  · exact Or.inr ⟨h, by simp [h]⟩
  · simp [h]

theorem stage_fst (ts : TaskState) (r : UserID) (g : Function) :
    (TaskStage.stage_for_running ts r g).1 = ts := by
  unfold TaskStage.stage_for_running
  by_cases h : ts.creator = r <;> simp [h]

theorem update_cmac_fst (ts : TaskState) (fname : String) (tag : String) :
    (TaskFinish.update_output_cmac ts fname tag).1 = ts ∨
    ∃ m, (TaskFinish.update_output_cmac ts fname tag).1 = { ts with assigned_outputs := m } := by
  unfold TaskFinish.update_output_cmac
  rcases hu : TaskFiles.update_cmac ts.assigned_outputs fname tag with e | m
  · simp [hu]
  · right
    exact ⟨m, by simp [hu]⟩

theorem update_result_fst (ts : TaskState) (res : TaskResult) :
    (TaskFinish.update_result ts res).1 = { ts with result := res } := rfl

theorem assignToApprove_ok {ts ts' : TaskState} (h : assignToApprove ts = Except.ok ts') :
    ts' = ts ∧ ts.all_data_assigned = true := by
  unfold assignToApprove at h
  by_cases hg : ts.all_data_assigned = true
  · simp [hg] at h
    exact ⟨h.symm, hg⟩
  · simp [hg] at h

theorem approveToStage_ok {ts ts' : TaskState} (h : approveToStage ts = Except.ok ts') :
    ts' = ts ∧ ts.everyone_approved = true := by
  unfold approveToStage at h
  by_cases hg : ts.everyone_approved = true
  · simp [hg] at h
    exact ⟨h.symm, hg⟩
  · simp [hg] at h

theorem stageToRun_ok {ts ts' : TaskState} (h : stageToRun ts = Except.ok ts') : ts' = ts := by
  unfold stageToRun at h
  injection h with h
  exact h.symm

theorem runToFinish_ok {ts ts' : TaskState} (h : runToFinish ts = Except.ok ts') : ts' = ts := by
  unfold runToFinish at h
  injection h with h
  exact h.symm

theorem finishToDone_ok {ts ts' : TaskState} (h : finishToDone ts = Except.ok ts') : ts' = ts := by
  unfold finishToDone at h
  injection h with h
  exact h.symm

theorem doneNew_ok {ts ts' : TaskState} (h : TaskDone.new ts = Except.ok ts') : ts' = ts := by
  unfold TaskDone.new at h
  injection h with h
  exact h.symm

theorem restoreAssign_ok {ts ts' : TaskState} (h : restoreAssign ts = Except.ok ts') :
    ts' = ts ∧ ts.status = TaskStatus.Created := by
  unfold restoreAssign at h
  cases hs : ts.status <;> rw [hs] at h
  case Created => exact ⟨(Except.ok.inj h).symm, rfl⟩
  all_goals exact Except.noConfusion h

theorem restoreApprove_ok {ts ts' : TaskState} (h : restoreApprove ts = Except.ok ts') :
    ts' = ts ∧ (ts.status = TaskStatus.Created ∨ ts.status = TaskStatus.DataAssigned) := by
  unfold restoreApprove at h
  cases hs : ts.status <;> rw [hs] at h
  case Created =>
    have hra : restoreAssign ts = Except.ok ts := by
      unfold restoreAssign
      rw [hs]
    rw [hra] at h
    have h2 : assignToApprove ts = Except.ok ts' := h
    rcases assignToApprove_ok h2 with ⟨h1, _⟩
    exact ⟨h1, Or.inl rfl⟩
  case DataAssigned => exact ⟨(Except.ok.inj h).symm, Or.inr rfl⟩
  all_goals exact Except.noConfusion h

theorem restoreStage_ok {ts ts' : TaskState} (h : restoreStage ts = Except.ok ts') :
    ts' = ts ∧ (ts.status = TaskStatus.Created ∨ ts.status = TaskStatus.DataAssigned ∨
      ts.status = TaskStatus.Approved) := by
  unfold restoreStage at h
  cases hs : ts.status <;> rw [hs] at h
  case Created =>
    rcases hr : restoreApprove ts with e | t <;> rw [hr] at h
    · exact Except.noConfusion h
    · have h2 : approveToStage t = Except.ok ts' := h
      rcases restoreApprove_ok hr with ⟨ht, _⟩
      subst ht
      rcases approveToStage_ok h2 with ⟨h1, _⟩
      exact ⟨h1, Or.inl rfl⟩
  case DataAssigned =>
    rcases hr : restoreApprove ts with e | t <;> rw [hr] at h
    · exact Except.noConfusion h
    · have h2 : approveToStage t = Except.ok ts' := h
      rcases restoreApprove_ok hr with ⟨ht, _⟩
      subst ht
      rcases approveToStage_ok h2 with ⟨h1, _⟩
      exact ⟨h1, Or.inr (Or.inl rfl)⟩
  case Approved => exact ⟨(Except.ok.inj h).symm, Or.inr (Or.inr rfl)⟩
  all_goals exact Except.noConfusion h

theorem restoreRun_ok {ts ts' : TaskState} (h : restoreRun ts = Except.ok ts') :
    ts' = ts ∧ ts.status = TaskStatus.Staged := by
  unfold restoreRun at h
  cases hs : ts.status <;> rw [hs] at h
  case Staged => exact ⟨(Except.ok.inj h).symm, rfl⟩
  all_goals exact Except.noConfusion h

theorem restoreFinish_ok {ts ts' : TaskState} (h : restoreFinish ts = Except.ok ts') :
    ts' = ts ∧ ts.status = TaskStatus.Running := by
  unfold restoreFinish at h
  cases hs : ts.status <;> rw [hs] at h
  case Running => exact ⟨(Except.ok.inj h).symm, rfl⟩
  all_goals exact Except.noConfusion h

theorem persistCreate_eq (ts : TaskState) :
    persistCreate ts = { ts with status := TaskStatus.Created } := rfl

theorem persistAssign_eq (ts : TaskState) :
    persistAssign ts =
      (if ts.all_data_assigned then { ts with status := TaskStatus.DataAssigned }
       else { ts with status := TaskStatus.Created }) := by
  unfold persistAssign assignToApprove
  by_cases h : ts.all_data_assigned = true <;> simp [h, Phase.toStatus]

theorem persistApprove_eq (ts : TaskState) :
    persistApprove ts =
      (if ts.everyone_approved then { ts with status := TaskStatus.Approved }
       else { ts with status := TaskStatus.DataAssigned }) := by
  unfold persistApprove approveToStage
  by_cases h : ts.everyone_approved = true <;> simp [h, Phase.toStatus]

theorem persistStage_eq (ts : TaskState) :
    persistStage ts = { ts with status := TaskStatus.Staged } := rfl

theorem persistRun_eq (ts : TaskState) :
    persistRun ts = { ts with status := TaskStatus.Running } := rfl

theorem persistFinish_eq (ts : TaskState) :
    persistFinish ts = { ts with status := TaskStatus.Finished } := rfl

/-- The participant invariants gathered at creation: approvals stay
inside the participant set, the creator and (for a private function)
the function owner are participants, and every declared owner is a
participant. -/
def TaskInv (f : Function) (ts : TaskState) : Prop :=
  ts.approved_users ⊆ ts.participants ∧
  ts.creator ∈ ts.participants ∧
  (f.public = false → f.owner ∈ ts.participants) ∧
  TaskFileOwners.all_owners ts.inputs_ownership ∪
    TaskFileOwners.all_owners ts.outputs_ownership ⊆ ts.participants

theorem reach_inv (f : Function) (c : Conf) (h : Reach f c) : TaskInv f (Conf.stateOf c) := by
  induction h with
  | created uid r ex args iow oow ts hnew =>
      have he := TaskCreate.new_ok_eq uid r ex args iow oow f ts hnew
      subst he
      have hsub : TaskFileOwners.all_owners iow ∪ TaskFileOwners.all_owners oow ⊆
          insert r (UserList.unions
            [TaskFileOwners.all_owners iow, TaskFileOwners.all_owners oow]) := by
        rw [UserList.unions_pair]
        exact Finset.subset_insert _ _
      refine ⟨Finset.empty_subset _, ?_, ?_, ?_⟩
      · show r ∈ _
        split
        · exact Finset.mem_insert_self r _
        · exact Finset.mem_insert_of_mem (Finset.mem_insert_self r _)
      · intro hp
        show f.owner ∈ _
        rw [if_neg (by simp [hp])]
        exact Finset.mem_insert_self _ _
      · show _ ⊆ _
        split
        · exact hsub
        · exact hsub.trans (Finset.subset_insert _ _)
  | vstep φ φ' ts ts' hr hstep ih =>
      cases hstep with
      | assignInput ts r fname file =>
          show TaskInv f (TaskAssign.assign_input ts r fname file).1
          rcases assign_input_fst ts r fname file with hh | ⟨m, hh⟩ <;> rw [hh] <;> exact ih
      | assignOutput ts r fname file =>
          show TaskInv f (TaskAssign.assign_output ts r fname file).1
          rcases assign_output_fst ts r fname file with hh | ⟨m, hh⟩ <;> rw [hh] <;> exact ih
      | approve ts r =>
          show TaskInv f (TaskApprove.approve ts r).1
          rcases approve_fst ts r with hh | ⟨hmem, hh⟩ <;> rw [hh]
          · exact ih
          · obtain ⟨i1, i2, i3, i4⟩ := ih
            exact ⟨Finset.insert_subset hmem i1, i2, i3, i4⟩
      | stage ts r g =>
          show TaskInv f (TaskStage.stage_for_running ts r g).1
          rw [stage_fst]
          exact ih
      | updateCmac ts fname tag =>
          show TaskInv f (TaskFinish.update_output_cmac ts fname tag).1
          rcases update_cmac_fst ts fname tag with hh | ⟨m, hh⟩ <;> rw [hh] <;> exact ih
      | updateResult ts res =>
          show TaskInv f (TaskFinish.update_result ts res).1
          rw [update_result_fst]
          exact ih
      | toApprove ts ts' h' =>
          obtain ⟨h1, _⟩ := assignToApprove_ok h'
          subst h1
          exact ih
      | toStage ts ts' h' =>
          obtain ⟨h1, _⟩ := approveToStage_ok h'
          subst h1
          exact ih
      | toRun ts ts' h' =>
          have h1 := stageToRun_ok h'
          subst h1
          exact ih
      | toFinish ts ts' h' =>
          have h1 := runToFinish_ok h'
          subst h1
          exact ih
      | toDone ts ts' h' =>
          have h1 := finishToDone_ok h'
          subst h1
          exact ih
  | pCreate ts hr ih => exact ih
  | pAssign ts hr ih =>
      show TaskInv f (persistAssign ts)
      rw [persistAssign_eq]
      split <;> exact ih
  | pApprove ts hr ih =>
      show TaskInv f (persistApprove ts)
      rw [persistApprove_eq]
      split <;> exact ih
  | pStage ts hr ih => exact ih
  | pRun ts hr ih => exact ih
  | pFinish ts hr ih => exact ih
  | rAssign ts ts' hr h' ih =>
      obtain ⟨h1, _⟩ := restoreAssign_ok h'
      subst h1
      exact ih
  | rApprove ts ts' hr h' ih =>
      obtain ⟨h1, _⟩ := restoreApprove_ok h'
      subst h1
      exact ih
  | rStage ts ts' hr h' ih =>
      obtain ⟨h1, _⟩ := restoreStage_ok h'
      subst h1
      exact ih
  | rRun ts ts' hr h' ih =>
      obtain ⟨h1, _⟩ := restoreRun_ok h'
      subst h1
      exact ih
  | rFinish ts ts' hr h' ih =>
      obtain ⟨h1, _⟩ := restoreFinish_ok h'
      subst h1
      exact ih
  | rDone ts ts' hr h' ih =>
      have h1 := doneNew_ok h'
      subst h1
      exact ih

/-- Where a non-`Unset` result can live: only the Finish and Done views,
and only `Finished` persisted records. -/
def ResultOk : Conf → Prop
  | .view φ ts => ts.result ≠ TaskResult.Unset → (φ = Phase.Finish ∨ φ = Phase.Done)
  | .saved ts => ts.result ≠ TaskResult.Unset → ts.status = TaskStatus.Finished

theorem reach_resultOk (f : Function) (c : Conf) (h : Reach f c) : ResultOk c := by
  induction h with
  | created uid r ex args iow oow ts hnew =>
      have he := TaskCreate.new_ok_eq uid r ex args iow oow f ts hnew
      subst he
      intro hres
      exact absurd rfl hres
  | vstep φ φ' ts ts' hr hstep ih =>
      cases hstep with
      | assignInput ts r fname file =>
          intro hres
          rcases assign_input_fst ts r fname file with hh | ⟨m, hh⟩ <;> rw [hh] at hres <;>
            rcases ih hres with h | h <;> exact absurd h (by decide)
      | assignOutput ts r fname file =>
          intro hres
          rcases assign_output_fst ts r fname file with hh | ⟨m, hh⟩ <;> rw [hh] at hres <;>
            rcases ih hres with h | h <;> exact absurd h (by decide)
      | approve ts r =>
          intro hres
          rcases approve_fst ts r with hh | ⟨hmem, hh⟩ <;> rw [hh] at hres <;>
            rcases ih hres with h | h <;> exact absurd h (by decide)
      | stage ts r g =>
          intro hres
          rw [stage_fst] at hres
          rcases ih hres with h | h <;> exact absurd h (by decide)
      | updateCmac ts fname tag =>
          intro hres
          exact Or.inl rfl
      | updateResult ts res =>
          intro hres
          exact Or.inl rfl
      | toApprove ts ts' h' =>
          obtain ⟨h1, _⟩ := assignToApprove_ok h'
          subst h1
          intro hres
          rcases ih hres with h | h <;> exact absurd h (by decide)
      | toStage ts ts' h' =>
          obtain ⟨h1, _⟩ := approveToStage_ok h'
          subst h1
          intro hres
          rcases ih hres with h | h <;> exact absurd h (by decide)
      | toRun ts ts' h' =>
          have h1 := stageToRun_ok h'
          subst h1
          intro hres
          rcases ih hres with h | h <;> exact absurd h (by decide)
      | toFinish ts ts' h' =>
          intro hres
          exact Or.inl rfl
      | toDone ts ts' h' =>
          intro hres
          exact Or.inr rfl
  | pCreate ts hr ih =>
      intro hres
      rcases ih hres with h | h <;> exact absurd h (by decide)
  | pAssign ts hr ih =>
      show ResultOk (Conf.saved (persistAssign ts))
      rw [persistAssign_eq]
      split <;> exact fun hres => by rcases ih hres with h | h <;> exact absurd h (by decide)
  | pApprove ts hr ih =>
      show ResultOk (Conf.saved (persistApprove ts))
      rw [persistApprove_eq]
      split <;> exact fun hres => by rcases ih hres with h | h <;> exact absurd h (by decide)
  | pStage ts hr ih =>
      intro hres
      rcases ih hres with h | h <;> exact absurd h (by decide)
  | pRun ts hr ih =>
      intro hres
      rcases ih hres with h | h <;> exact absurd h (by decide)
  | pFinish ts hr ih =>
      intro hres
      rfl
  | rAssign ts ts' hr h' ih =>
      obtain ⟨h1, hst⟩ := restoreAssign_ok h'
      subst h1
      intro hres
      rw [ih hres] at hst
      exact absurd hst (by decide)
  | rApprove ts ts' hr h' ih =>
      obtain ⟨h1, hst⟩ := restoreApprove_ok h'
      subst h1
      intro hres
      rcases hst with hst | hst <;> rw [ih hres] at hst <;> exact absurd hst (by decide)
  | rStage ts ts' hr h' ih =>
      obtain ⟨h1, hst⟩ := restoreStage_ok h'
      subst h1
      intro hres
      rcases hst with hst | hst | hst <;> rw [ih hres] at hst <;> exact absurd hst (by decide)
  | rRun ts ts' hr h' ih =>
      obtain ⟨h1, hst⟩ := restoreRun_ok h'
      subst h1
      intro hres
      rw [ih hres] at hst
      exact absurd hst (by decide)
  | rFinish ts ts' hr h' ih =>
      intro hres
      exact Or.inl rfl
  | rDone ts ts' hr h' ih =>
      intro hres
      exact Or.inr rfl

/-- A public function with no declared arguments, inputs, or outputs,
for concrete lifecycle runs. -/
def fPub : Function :=
  { id := 7, name := "echo", payload := "code", public := true, owner := "alice",
    executor_type := "native", arguments := [], inputs := [], outputs := [] }

/-- The state produced by `Task::<Create>::new` over `fPub` with
requester `alice`. -/
def ts0 : TaskState :=
  { task_id := 0, creator := "alice", function_id := "function-7",
    function_arguments := [], executor := "builtin", inputs_ownership := [],
    outputs_ownership := [], function_owner := "alice",
    participants := {"alice"}, approved_users := ∅, assigned_inputs := [],
    assigned_outputs := [], result := TaskResult.Unset, status := TaskStatus.Created }

/-- An input file owned by `alice`. -/
def fileAlice : TeaclaveInputFile :=
  { url := "https://in", uuid := 11, owner := {"alice"} }

/-- An input file owned by `bob`. -/
def fileBob : TeaclaveInputFile :=
  { url := "https://inb", uuid := 21, owner := {"bob"} }

/-- An output file owned by `alice`. -/
def outAlice : TeaclaveOutputFile :=
  { url := "https://out", uuid := 12, cmac := none, owner := {"alice"} }

/-- A single-participant state with its one declared input already
assigned (all gates hold). -/
def tsIn : TaskState :=
  { task_id := 1, creator := "alice", function_id := "function-9",
    function_arguments := [("x", "1")], executor := "builtin",
    inputs_ownership := [("in", {"alice"})], outputs_ownership := [],
    function_owner := "alice", participants := {"alice"}, approved_users := ∅,
    assigned_inputs := [("in", fileAlice)], assigned_outputs := [],
    result := TaskResult.Unset, status := TaskStatus.Created }

/-- A two-participant state at DataAssigned with no approvals. -/
def tsTwo : TaskState :=
  { task_id := 2, creator := "alice", function_id := "function-9",
    function_arguments := [], executor := "builtin",
    inputs_ownership := [], outputs_ownership := [],
    function_owner := "bob", participants := {"alice", "bob"}, approved_users := ∅,
    assigned_inputs := [], assigned_outputs := [],
    result := TaskResult.Unset, status := TaskStatus.DataAssigned }

/-- C1: for every task constructed by `Task::<Create>::new` and then
advanced by any sequence of view operations (`assign_input`,
`assign_output`, `approve`, `stage_for_running`, `update_output_cmac`,
`update_result`) and view/state conversions: `approved_users` is a
subset of `participants`, the creator is a participant, the function
owner is a participant whenever the function is private, and every user
appearing in a declared input or output owner-set is a participant. -/
theorem c1_participant_invariants (f : Function) (c : Conf) (h : Reach f c) :
    (Conf.stateOf c).approved_users ⊆ (Conf.stateOf c).participants ∧
    (Conf.stateOf c).creator ∈ (Conf.stateOf c).participants ∧
    (f.public = false → f.owner ∈ (Conf.stateOf c).participants) ∧
    TaskFileOwners.all_owners (Conf.stateOf c).inputs_ownership ∪
      TaskFileOwners.all_owners (Conf.stateOf c).outputs_ownership ⊆
      (Conf.stateOf c).participants :=
  reach_inv f c h

/-- Witness for C1 at the freshly created `ts0`. -/
theorem c1_participant_invariants_witness :
    ts0.approved_users ⊆ ts0.participants ∧
    ts0.creator ∈ ts0.participants ∧
    (fPub.public = false → fPub.owner ∈ ts0.participants) ∧
    TaskFileOwners.all_owners ts0.inputs_ownership ∪
      TaskFileOwners.all_owners ts0.outputs_ownership ⊆ ts0.participants :=
  c1_participant_invariants fPub (Conf.view Phase.Create ts0)
    (Reach.created 0 "alice" "builtin" [] [] [] ts0 (by decide))

/-- C10: `stage_for_running` leaves the wrapped `TaskState` unchanged,
whether the call succeeds or fails. -/
theorem c10_stage_frame (ts : TaskState) (r : UserID) (g : Function) :
    (TaskStage.stage_for_running ts r g).1 = ts :=
  stage_fst ts r g

/-- C9 counterexample: a Finish view persisted without `update_result`
(state reached by the lifecycle: create, persist, restore, and the
unconditional forward conversions) produces a `TaskState` with status
`Finished` and result `Unset`, so "result differs from Unset iff status
is Finished or Failed" fails at an observable boundary. -/
theorem c9_counterexample :
    (persistFinish (persistRun (persistCreate ts0))).status = TaskStatus.Finished ∧
    (persistFinish (persistRun (persistCreate ts0))).result = TaskResult.Unset ∧
    ¬ ((persistFinish (persistRun (persistCreate ts0))).result ≠ TaskResult.Unset ↔
        ((persistFinish (persistRun (persistCreate ts0))).status = TaskStatus.Finished ∨
         (persistFinish (persistRun (persistCreate ts0))).status = TaskStatus.Failed)) := by
  decide

/-- C9 (amended): only one direction holds — on every persisted
`TaskState` reachable in the lifecycle, a result different from `Unset`
implies status `Finished` (no conversion inspects `result`, so a Finish
view persisted with `result = Unset` still becomes `Finished`). -/
theorem c9_result_only_when_finished (f : Function) (ts : TaskState)
    (h : Reach f (Conf.saved ts)) (hres : ts.result ≠ TaskResult.Unset) :
    ts.status = TaskStatus.Finished :=
  reach_resultOk f (Conf.saved ts) h hres

/-- Witness for C9 (amended): a full run that sets a result during
Finish and persists it. -/
theorem c9_result_only_when_finished_witness :
    (persistFinish
        ((TaskFinish.update_result (persistCreate ts0) (TaskResult.Ok "ok")).1)).status =
      TaskStatus.Finished := by
  have h1 : Reach fPub (Conf.view Phase.Create ts0) :=
    Reach.created 0 "alice" "builtin" [] [] [] ts0 (by decide)
  have h2 : Reach fPub (Conf.saved (persistCreate ts0)) := Reach.pCreate ts0 h1
  have h3 : Reach fPub (Conf.view Phase.Assign (persistCreate ts0)) :=
    Reach.rAssign (persistCreate ts0) (persistCreate ts0) h2 (by decide)
  have h4 : Reach fPub (Conf.view Phase.Approve (persistCreate ts0)) :=
    Reach.vstep _ _ _ _ h3 (ViewStep.toApprove _ _ (by decide))
  have h5 : Reach fPub (Conf.view Phase.Stage (persistCreate ts0)) :=
    Reach.vstep _ _ _ _ h4 (ViewStep.toStage _ _ (by decide))
  have h6 : Reach fPub (Conf.view Phase.Run (persistCreate ts0)) :=
    Reach.vstep _ _ _ _ h5 (ViewStep.toRun _ _ (by decide))
  have h7 : Reach fPub (Conf.view Phase.Finish (persistCreate ts0)) :=
    Reach.vstep _ _ _ _ h6 (ViewStep.toFinish _ _ (by decide))
  have h8 : Reach fPub (Conf.view Phase.Finish
      ((TaskFinish.update_result (persistCreate ts0) (TaskResult.Ok "ok")).1)) :=
    Reach.vstep _ _ _ _ h7 (ViewStep.updateResult _ _)
  have h9 : Reach fPub (Conf.saved (persistFinish
      ((TaskFinish.update_result (persistCreate ts0) (TaskResult.Ok "ok")).1))) :=
    Reach.pFinish _ h8
  exact c9_result_only_when_finished fPub _ h9 (by decide)

/-- C5 counterexample: the authorization error of `stage_for_running`
is the source's misspelled string "Requestor is not the task creater",
not "Requestor is not the task creator". -/
theorem c5_counterexample :
    ts0.creator ≠ "bob" ∧
    (TaskStage.stage_for_running ts0 "bob" fPub).2 =
      Except.error "Requestor is not the task creater" ∧
    "Requestor is not the task creater" ≠ "Requestor is not the task creator" := by
  decide

/-- C5 (amended): `stage_for_running` fails with the source string
"Requestor is not the task creater" exactly when the requester is not
the creator, and otherwise returns the `StagedTask` with exactly the
claimed fields, leaving the state unchanged. -/
theorem c5_stage_for_running (ts : TaskState) (r : UserID) (g : Function) :
    (r ≠ ts.creator →
      TaskStage.stage_for_running ts r g =
        (ts, Except.error "Requestor is not the task creater")) ∧
    (r = ts.creator →
      TaskStage.stage_for_running ts r g =
        (ts, Except.ok
          { task_id := ts.task_id, executor := ts.executor,
            executor_type := g.executor_type, function_id := g.id,
            function_name := g.name, function_payload := g.payload,
            function_arguments := ts.function_arguments,
            input_data := ts.assigned_inputs,
            output_data := ts.assigned_outputs })) := by
  constructor
  · intro hne
    unfold TaskStage.stage_for_running
    rw [if_neg (fun he => hne he.symm)]
  · intro he
    unfold TaskStage.stage_for_running
    rw [if_pos he.symm]

/-- Witness for C5 (amended): the creator stages `ts0`. -/
theorem c5_stage_for_running_witness :
    TaskStage.stage_for_running ts0 "alice" fPub =
      (ts0, Except.ok
        { task_id := ts0.task_id, executor := ts0.executor,
          executor_type := fPub.executor_type, function_id := fPub.id,
          function_name := fPub.name, function_payload := fPub.payload,
          function_arguments := ts0.function_arguments,
          input_data := ts0.assigned_inputs,
          output_data := ts0.assigned_outputs }) :=
  (c5_stage_for_running ts0 "alice" fPub).2 rfl

/-- C2 counterexample: the Approve → Stage gate error is the source's
misspelled string "Not ready: Apporve -> Stage", not
"Not ready: Approve -> Stage". -/
theorem c2_counterexample :
    ¬ (tsTwo.participants.card = 1 ∨ tsTwo.participants = tsTwo.approved_users) ∧
    approveToStage tsTwo = Except.error "Not ready: Apporve -> Stage" ∧
    "Not ready: Apporve -> Stage" ≠ "Not ready: Approve -> Stage" := by
  decide

/-- C2 (amended): Assign → Approve succeeds iff both assigned key sets
equal the declared key sets, failing with "Not ready: Assign -> Approve";
Approve → Stage succeeds iff there is exactly one participant or the
approvals equal the participants, failing with the source string
"Not ready: Apporve -> Stage". -/
theorem c2_gate_conversions (ts : TaskState) :
    ((∃ t, assignToApprove ts = Except.ok t) ↔
      (keySet ts.inputs_ownership = keySet ts.assigned_inputs ∧
       keySet ts.outputs_ownership = keySet ts.assigned_outputs)) ∧
    (¬ (keySet ts.inputs_ownership = keySet ts.assigned_inputs ∧
        keySet ts.outputs_ownership = keySet ts.assigned_outputs) →
      assignToApprove ts = Except.error "Not ready: Assign -> Approve") ∧
    ((∃ t, approveToStage ts = Except.ok t) ↔
      (ts.participants.card = 1 ∨ ts.participants = ts.approved_users)) ∧
    (¬ (ts.participants.card = 1 ∨ ts.participants = ts.approved_users) →
      approveToStage ts = Except.error "Not ready: Apporve -> Stage") := by
  have h1 : ts.all_data_assigned = true ↔
      (keySet ts.inputs_ownership = keySet ts.assigned_inputs ∧
       keySet ts.outputs_ownership = keySet ts.assigned_outputs) := by
    simp [TaskState.all_data_assigned]
  have h2 : ts.everyone_approved = true ↔
      (ts.participants.card = 1 ∨ ts.participants = ts.approved_users) := by
    simp [TaskState.everyone_approved]
  refine ⟨?_, ?_, ?_, ?_⟩
  · constructor
    · rintro ⟨t, ht⟩
      exact h1.mp (assignToApprove_ok ht).2
    · intro hc
      exact ⟨ts, by unfold assignToApprove; rw [if_pos (h1.mpr hc)]⟩
  · intro hc
    unfold assignToApprove
    rw [if_neg (fun hb => hc (h1.mp hb))]
  · constructor
    · rintro ⟨t, ht⟩
      exact h2.mp (approveToStage_ok ht).2
    · intro hc
      exact ⟨ts, by unfold approveToStage; rw [if_pos (h2.mpr hc)]⟩
  · intro hc
    unfold approveToStage
    rw [if_neg (fun hb => hc (h2.mp hb))]

/-- Witness for C2 (amended) at the unapproved two-participant state. -/
theorem c2_gate_conversions_witness :
    approveToStage tsTwo = Except.error "Not ready: Apporve -> Stage" :=
  (c2_gate_conversions tsTwo).2.2.2 (by decide)

/-- C7 counterexample: `Task::<Done>::new` performs no status check, so
restoring to the Done view succeeds even from status `Created`. -/
theorem c7_counterexample :
    ts0.status ≠ TaskStatus.Finished ∧ TaskDone.new ts0 = Except.ok ts0 := by
  decide

/-- C7 (amended): restore to Run succeeds exactly on status `Staged`
and to Finish exactly on `Running`, failing otherwise with the claimed
strings; the Done view (`Task::<Done>::new`) is produced
unconditionally, for every source status. -/
theorem c7_restore_by_status (ts : TaskState) :
    ((∃ t, restoreRun ts = Except.ok t) ↔ ts.status = TaskStatus.Staged) ∧
    (ts.status ≠ TaskStatus.Staged →
      restoreRun ts = Except.error "Cannot restore to Run from saved state") ∧
    ((∃ t, restoreFinish ts = Except.ok t) ↔ ts.status = TaskStatus.Running) ∧
    (ts.status ≠ TaskStatus.Running →
      restoreFinish ts = Except.error "Cannot restore to Finish from saved state") ∧
    TaskDone.new ts = Except.ok ts := by
  refine ⟨?_, ?_, ?_, ?_, rfl⟩
  · constructor
    · rintro ⟨t, ht⟩
      exact (restoreRun_ok ht).2
    · intro hs
      exact ⟨ts, by unfold restoreRun; rw [hs]⟩
  · intro hs
    unfold restoreRun
    cases h : ts.status
    case Staged => exact absurd h hs
    all_goals rfl
  · constructor
    · rintro ⟨t, ht⟩
      exact (restoreFinish_ok ht).2
    · intro hs
      exact ⟨ts, by unfold restoreFinish; rw [hs]⟩
  · intro hs
    unfold restoreFinish
    cases h : ts.status
    case Running => exact absurd h hs
    all_goals rfl

/-- Witness for C7 (amended): no restore to Run from a Created state. -/
theorem c7_restore_by_status_witness :
    restoreRun ts0 = Except.error "Cannot restore to Run from saved state" :=
  (c7_restore_by_status ts0).2.1 (by decide)

/-- C3 counterexample: a Created state with all data assigned and a
single participant restores to Stage, but persisting the Stage view
yields status `Staged` (the Stage → Run conversion is unconditional),
not `Approved`. -/
theorem c3_counterexample :
    tsIn.status = TaskStatus.Created ∧ tsIn.all_data_assigned = true ∧
    tsIn.participants.card = 1 ∧ restoreStage tsIn = Except.ok tsIn ∧
    (persistStage tsIn).status = TaskStatus.Staged ∧
    (persistStage tsIn).status ≠ TaskStatus.Approved := by
  decide

/-- C3 (amended): restoring a Created state with every declared name
assigned and exactly one participant to the Stage view succeeds
(auto-advancing through Assign and Approve), and persisting that Stage
view yields status `Staged` (not `Approved`: the Stage → Run advance
attempted by persistence is unconditional). -/
theorem c3_restore_stage_auto (ts : TaskState) (h1 : ts.status = TaskStatus.Created)
    (h2 : ts.all_data_assigned = true) (h3 : ts.participants.card = 1) :
    restoreStage ts = Except.ok ts ∧ (persistStage ts).status = TaskStatus.Staged := by
  have hEv : ts.everyone_approved = true := by
    simp [TaskState.everyone_approved, h3]
  constructor
  · unfold restoreStage
    rw [h1]
    have hA : restoreApprove ts = Except.ok ts := by
      unfold restoreApprove
      rw [h1]
      have hra : restoreAssign ts = Except.ok ts := by
        unfold restoreAssign
        rw [h1]
      rw [hra]
      show assignToApprove ts = Except.ok ts
      unfold assignToApprove
      rw [if_pos h2]
    rw [hA]
    show approveToStage ts = Except.ok ts
    unfold approveToStage
    rw [if_pos hEv]
  · rw [persistStage_eq]

/-- Witness for C3 (amended) at `tsIn`. -/
theorem c3_restore_stage_auto_witness :
    restoreStage tsIn = Except.ok tsIn ∧ (persistStage tsIn).status = TaskStatus.Staged :=
  c3_restore_stage_auto tsIn (by decide) (by decide) (by decide)

/-- A function declaring arguments `x` and `y` and one input `in`, for
the creation-mismatch counterexample. -/
def fArgsXY : Function :=
  { id := 3, name := "g", payload := "p", public := true, owner := "carol",
    executor_type := "native", arguments := ["x", "y"], inputs := ["in"], outputs := [] }

/-- C4 counterexample: when both the argument keys and the input keys
mismatch, creation fails with "function_arguments mismatch" even though
the supplied inputs-ownership keys differ from the declared input
names, so "fails with \"input keys mismatch\" exactly when the input
keys differ" is false. -/
theorem c4_counterexample :
    TaskCreate.new 2 "alice" "builtin" [("x", "1")] [] [] fArgsXY =
      Except.error "function_arguments mismatch" ∧
    fArgsXY.inputs.toFinset ≠ keySet ([] : TaskFileOwners) ∧
    TaskCreate.new 2 "alice" "builtin" [("x", "1")] [] [] fArgsXY ≠
      Except.error "input keys mismatch" := by
  decide

/-- C4 (amended): the three creation checks run in order — the call
fails with "function_arguments mismatch" iff the argument key sets
differ; with "input keys mismatch" iff the argument keys match and the
input keys differ; with "output keys mismatch" iff both earlier key
sets match and the output keys differ; and when all three match it
returns a state with status `Created` and default `approved_users`,
`assigned_inputs`, `assigned_outputs`, and `result`. -/
theorem c4_create_validation (uid : Nat) (r : UserID) (ex : String)
    (args : FunctionArguments) (iow oow : TaskFileOwners) (f : Function) :
    (TaskCreate.new uid r ex args iow oow f = Except.error "function_arguments mismatch" ↔
      f.arguments.toFinset ≠ keySet args) ∧
    (TaskCreate.new uid r ex args iow oow f = Except.error "input keys mismatch" ↔
      (f.arguments.toFinset = keySet args ∧ f.inputs.toFinset ≠ keySet iow)) ∧
    (TaskCreate.new uid r ex args iow oow f = Except.error "output keys mismatch" ↔
      (f.arguments.toFinset = keySet args ∧ f.inputs.toFinset = keySet iow ∧
       f.outputs.toFinset ≠ keySet oow)) ∧
    ((f.arguments.toFinset = keySet args ∧ f.inputs.toFinset = keySet iow ∧
      f.outputs.toFinset = keySet oow) →
      ∃ ts, TaskCreate.new uid r ex args iow oow f = Except.ok ts ∧
        ts.status = TaskStatus.Created ∧ ts.approved_users = ∅ ∧
        ts.assigned_inputs = [] ∧ ts.assigned_outputs = [] ∧
        ts.result = TaskResult.Unset) := by
  by_cases h1 : f.arguments.toFinset = keySet args
  · by_cases h2 : f.inputs.toFinset = keySet iow
    · by_cases h3 : f.outputs.toFinset = keySet oow
      · have hok :
            TaskCreate.new uid r ex args iow oow f = Except.ok
              { task_id := uid, creator := r, function_id := Function.external_id f,
                function_arguments := args, executor := ex, inputs_ownership := iow,
                outputs_ownership := oow, function_owner := f.owner,
                participants :=
                  (if f.public then
                     insert r (UserList.unions
                       [TaskFileOwners.all_owners iow, TaskFileOwners.all_owners oow])
                   else
                     insert f.owner (insert r (UserList.unions
                       [TaskFileOwners.all_owners iow, TaskFileOwners.all_owners oow]))),
                approved_users := ∅, assigned_inputs := [], assigned_outputs := [],
                result := TaskResult.Unset, status := TaskStatus.Created } := by
          simp only [TaskCreate.new, h1, h2, h3, not_true_eq_false, if_false]
        rw [hok]
        refine ⟨by simp [h1], by simp [h2], by simp [h3], fun _ => ⟨_, rfl, rfl, rfl, rfl, rfl, rfl⟩⟩
      · have herr : TaskCreate.new uid r ex args iow oow f =
            Except.error "output keys mismatch" := by
          simp only [TaskCreate.new, h1, h2, h3, not_true_eq_false, if_false,
            not_false_eq_true, if_true]
        rw [herr]
        exact ⟨by simp [h1], by simp [h1, h2], by simp [h1, h2, h3], fun hc => absurd hc.2.2 h3⟩
    · have herr : TaskCreate.new uid r ex args iow oow f =
          Except.error "input keys mismatch" := by
        simp only [TaskCreate.new, h1, h2, not_true_eq_false, if_false,
          not_false_eq_true, if_true]
      rw [herr]
      exact ⟨by simp [h1], by simp [h1, h2], by simp [h2], fun hc => absurd hc.2.1 h2⟩
  · have herr : TaskCreate.new uid r ex args iow oow f =
        Except.error "function_arguments mismatch" := by
      simp only [TaskCreate.new, h1, not_false_eq_true, if_true]
    rw [herr]
    exact ⟨by simp [h1], by simp [h1], by simp [h1], fun hc => absurd hc.1 h1⟩

/-- Witness for C4 (amended): a fully matching creation request. -/
theorem c4_create_validation_witness :
    ∃ ts, TaskCreate.new 0 "alice" "builtin" [] [] [] fPub = Except.ok ts ∧
      ts.status = TaskStatus.Created ∧ ts.approved_users = ∅ ∧
      ts.assigned_inputs = [] ∧ ts.assigned_outputs = [] ∧
      ts.result = TaskResult.Unset :=
  (c4_create_validation 0 "alice" "builtin" [] [] [] fPub).2.2.2 (by decide)

/-- The round-trip of the spec's P6: restore a persisted `TaskState` to
the view matching its status (Created → Assign, DataAssigned → Approve,
Approved → Stage, Staged → Run, Running → Finish, Finished → Done) and
convert that view back to a `TaskState`.  The source has no
`From<Task<Done>> for TaskState` impl (it is commented out), so the
`Finished` row has no backward conversion, rendered as `none`; `Failed`
matches no view. -/
def roundTripMatching (ts : TaskState) : Option TaskState :=
  match ts.status with
  | TaskStatus.Created =>
      match restoreAssign ts with
      | Except.ok t => some (persistAssign t)
      | Except.error _ => none
  | TaskStatus.DataAssigned =>
      match restoreApprove ts with
      | Except.ok t => some (persistApprove t)
      | Except.error _ => none
  | TaskStatus.Approved =>
      match restoreStage ts with
      | Except.ok t => some (persistStage t)
      | Except.error _ => none
  | TaskStatus.Staged =>
      match restoreRun ts with
      | Except.ok t => some (persistRun t)
      | Except.error _ => none
  | TaskStatus.Running =>
      match restoreFinish ts with
      | Except.ok t => some (persistFinish t)
      | Except.error _ => none
  | TaskStatus.Finished => none
  | TaskStatus.Failed => none

/-- Equality of two task states on every field except `status`. -/
def TaskState.eqExceptStatus (a b : TaskState) : Prop :=
  a.task_id = b.task_id ∧ a.creator = b.creator ∧ a.function_id = b.function_id ∧
  a.function_arguments = b.function_arguments ∧ a.executor = b.executor ∧
  a.inputs_ownership = b.inputs_ownership ∧ a.outputs_ownership = b.outputs_ownership ∧
  a.function_owner = b.function_owner ∧ a.participants = b.participants ∧
  a.approved_users = b.approved_users ∧ a.assigned_inputs = b.assigned_inputs ∧
  a.assigned_outputs = b.assigned_outputs ∧ a.result = b.result

theorem eqExceptStatus_update (ts : TaskState) (s : TaskStatus) :
    TaskState.eqExceptStatus ts { ts with status := s } :=
  ⟨rfl, rfl, rfl, rfl, rfl, rfl, rfl, rfl, rfl, rfl, rfl, rfl, rfl⟩

/-- A state persisted at Approved, and one persisted at Finished. -/
def tsApp : TaskState :=
  { ts0 with status := TaskStatus.Approved }

def tsFin : TaskState :=
  { ts0 with status := TaskStatus.Finished, result := TaskResult.Ok "out" }

/-- C8 counterexample: for a persisted state with status `Finished` the
matching view is Done, but the source has no `Done` → `TaskState`
conversion (it is commented out), so the claimed round trip does not
exist for status `Finished`. -/
theorem c8_counterexample :
    tsFin.status = TaskStatus.Finished ∧ roundTripMatching tsFin = none := by
  decide

/-- C8 (amended): for a persisted status among Created, DataAssigned,
Approved, Staged, Running, restoring to the matching view and
converting back yields a state equal on every field except that the
status is advanced exactly when the next gate holds (the gates out of
Stage, Run, and Finish hold unconditionally).  Status `Finished` is
excluded: its matching Done view has no backward conversion in the
source. -/
theorem c8_round_trip (ts : TaskState)
    (h : ts.status = TaskStatus.Created ∨ ts.status = TaskStatus.DataAssigned ∨
      ts.status = TaskStatus.Approved ∨ ts.status = TaskStatus.Staged ∨
      ts.status = TaskStatus.Running) :
    ∃ ts', roundTripMatching ts = some ts' ∧ TaskState.eqExceptStatus ts ts' ∧
      (ts'.status = ts.status ∨
       (ts.status = TaskStatus.Created ∧ ts.all_data_assigned = true ∧
        ts'.status = TaskStatus.DataAssigned) ∨
       (ts.status = TaskStatus.DataAssigned ∧ ts.everyone_approved = true ∧
        ts'.status = TaskStatus.Approved) ∨
       (ts.status = TaskStatus.Approved ∧ ts'.status = TaskStatus.Staged) ∨
       (ts.status = TaskStatus.Staged ∧ ts'.status = TaskStatus.Running) ∨
       (ts.status = TaskStatus.Running ∧ ts'.status = TaskStatus.Finished)) := by
  rcases h with hs | hs | hs | hs | hs
  · have hrt : roundTripMatching ts = some (persistAssign ts) := by
      unfold roundTripMatching
      rw [hs]
      have hra : restoreAssign ts = Except.ok ts := by
        unfold restoreAssign
        rw [hs]
      rw [hra]
    rw [hrt, persistAssign_eq]
    by_cases hg : ts.all_data_assigned = true
    · rw [if_pos hg]
      exact ⟨_, rfl, eqExceptStatus_update ts _, Or.inr (Or.inl ⟨hs, hg, rfl⟩)⟩
    · rw [if_neg hg]
      exact ⟨_, rfl, eqExceptStatus_update ts _, Or.inl (by rw [hs])⟩
  · have hrt : roundTripMatching ts = some (persistApprove ts) := by
      unfold roundTripMatching
      rw [hs]
      have hra : restoreApprove ts = Except.ok ts := by
        unfold restoreApprove
        rw [hs]
      rw [hra]
    rw [hrt, persistApprove_eq]
    by_cases hg : ts.everyone_approved = true
    · rw [if_pos hg]
      exact ⟨_, rfl, eqExceptStatus_update ts _, Or.inr (Or.inr (Or.inl ⟨hs, hg, rfl⟩))⟩
    · rw [if_neg hg]
      exact ⟨_, rfl, eqExceptStatus_update ts _, Or.inl (by rw [hs])⟩
  · have hrt : roundTripMatching ts = some (persistStage ts) := by
      unfold roundTripMatching
      rw [hs]
      have hra : restoreStage ts = Except.ok ts := by
        unfold restoreStage
        rw [hs]
      rw [hra]
    rw [hrt, persistStage_eq]
    exact ⟨_, rfl, eqExceptStatus_update ts _, Or.inr (Or.inr (Or.inr (Or.inl ⟨hs, rfl⟩)))⟩
  · have hrt : roundTripMatching ts = some (persistRun ts) := by
      unfold roundTripMatching
      rw [hs]
      have hra : restoreRun ts = Except.ok ts := by
        unfold restoreRun
        rw [hs]
      rw [hra]
    rw [hrt, persistRun_eq]
    exact ⟨_, rfl, eqExceptStatus_update ts _,
      Or.inr (Or.inr (Or.inr (Or.inr (Or.inl ⟨hs, rfl⟩))))⟩
  · have hrt : roundTripMatching ts = some (persistFinish ts) := by
      unfold roundTripMatching
      rw [hs]
      have hra : restoreFinish ts = Except.ok ts := by
        unfold restoreFinish
        rw [hs]
      rw [hra]
    rw [hrt, persistFinish_eq]
    exact ⟨_, rfl, eqExceptStatus_update ts _,
      Or.inr (Or.inr (Or.inr (Or.inr (Or.inr ⟨hs, rfl⟩))))⟩

/-- Witness for C8 (amended) at the Approved-status state `tsApp`. -/
theorem c8_round_trip_witness :
    ∃ ts', roundTripMatching tsApp = some ts' ∧ TaskState.eqExceptStatus tsApp ts' ∧
      (ts'.status = tsApp.status ∨
       (tsApp.status = TaskStatus.Created ∧ tsApp.all_data_assigned = true ∧
        ts'.status = TaskStatus.DataAssigned) ∨
       (tsApp.status = TaskStatus.DataAssigned ∧ tsApp.everyone_approved = true ∧
        ts'.status = TaskStatus.Approved) ∨
       (tsApp.status = TaskStatus.Approved ∧ ts'.status = TaskStatus.Staged) ∨
       (tsApp.status = TaskStatus.Staged ∧ ts'.status = TaskStatus.Running) ∨
       (tsApp.status = TaskStatus.Running ∧ ts'.status = TaskStatus.Finished)) :=
  c8_round_trip tsApp (Or.inr (Or.inr (Or.inl (by decide))))

theorem ownerListMsg_decomp (x : String) :
    "Assign: requester is not in the owner list. " ++ x ++ "." =
      "Assign: " ++ "requester is not in the owner list" ++ (". " ++ x ++ ".") := by
  have hfold : ("Assign: requester is not in the owner list. " : String) =
      ("Assign: " ++ "requester is not in the owner list") ++ ". " := by decide
  rw [hfold]
  simp only [String.append_assoc]

/-- C6: `assign_input(requester, name, file)` fails with an error whose
message carries "requester is not in the owner list" when the requester
is not in the file's owner set; otherwise it fails when the declared
owner set for `name` is absent or differs from the file's owners;
otherwise it fails when `name` was already assigned; otherwise it
succeeds; and every failure leaves the state unchanged.  The same holds
for `assign_output` over the outputs. -/
theorem c6_assign_checks (ts : TaskState) (r : UserID) (fname : String)
    (fi : TeaclaveInputFile) (fo : TeaclaveOutputFile) :
    (r ∉ fi.owner → ∃ s, TaskAssign.assign_input ts r fname fi =
      (ts, Except.error ("Assign: " ++ "requester is not in the owner list" ++ s))) ∧
    (r ∈ fi.owner → lookupName fname ts.inputs_ownership ≠ some fi.owner →
      ∃ e, TaskAssign.assign_input ts r fname fi = (ts, Except.error e)) ∧
    (r ∈ fi.owner → lookupName fname ts.inputs_ownership = some fi.owner →
      lookupName fname ts.assigned_inputs ≠ none →
      ∃ e, TaskAssign.assign_input ts r fname fi = (ts, Except.error e)) ∧
    (r ∈ fi.owner → lookupName fname ts.inputs_ownership = some fi.owner →
      lookupName fname ts.assigned_inputs = none →
      (TaskAssign.assign_input ts r fname fi).2 = Except.ok ()) ∧
    (∀ e, (TaskAssign.assign_input ts r fname fi).2 = Except.error e →
      (TaskAssign.assign_input ts r fname fi).1 = ts) ∧
    (r ∉ fo.owner → ∃ s, TaskAssign.assign_output ts r fname fo =
      (ts, Except.error ("Assign: " ++ "requester is not in the owner list" ++ s))) ∧
    (r ∈ fo.owner → lookupName fname ts.outputs_ownership ≠ some fo.owner →
      ∃ e, TaskAssign.assign_output ts r fname fo = (ts, Except.error e)) ∧
    (r ∈ fo.owner → lookupName fname ts.outputs_ownership = some fo.owner →
      lookupName fname ts.assigned_outputs ≠ none →
      ∃ e, TaskAssign.assign_output ts r fname fo = (ts, Except.error e)) ∧
    (r ∈ fo.owner → lookupName fname ts.outputs_ownership = some fo.owner →
      lookupName fname ts.assigned_outputs = none →
      (TaskAssign.assign_output ts r fname fo).2 = Except.ok ()) ∧
    (∀ e, (TaskAssign.assign_output ts r fname fo).2 = Except.error e →
      (TaskAssign.assign_output ts r fname fo).1 = ts) := by
  refine ⟨?_, ?_, ?_, ?_, ?_, ?_, ?_, ?_, ?_, ?_⟩
  · intro hno
    refine ⟨". " ++ fi.external_id ++ ".", ?_⟩
    unfold TaskAssign.assign_input
    rw [if_neg hno, ownerListMsg_decomp]
  · intro hin hne
    unfold TaskAssign.assign_input
    rw [if_pos hin]
    rcases hl : lookupName fname ts.inputs_ownership with _ | d
    · have hc : TaskFileOwners.check ts.inputs_ownership fname fi.owner =
          Except.error ("Assign: file name not declared. " ++ fname) := by
        unfold TaskFileOwners.check
        rw [hl]
      rw [hc]
      exact ⟨_, rfl⟩
    · have hd : d ≠ fi.owner := fun he => hne (by rw [hl, he])
      have hc : TaskFileOwners.check ts.inputs_ownership fname fi.owner =
          Except.error ("Assign: file ownership mismatch. " ++ fname) := by
        simp [TaskFileOwners.check, hl, hd]
      rw [hc]
      exact ⟨_, rfl⟩
  · intro hin hl hne
    unfold TaskAssign.assign_input
    rw [if_pos hin]
    have hc : TaskFileOwners.check ts.inputs_ownership fname fi.owner = Except.ok () := by
      simp [TaskFileOwners.check, hl]
    rw [hc]
    rcases ho : lookupName fname ts.assigned_inputs with _ | v
    · exact absurd ho hne
    · have ha : TaskFiles.assign ts.assigned_inputs fname fi =
          Except.error ("Assign: file name already assigned. " ++ fname) := by
        unfold TaskFiles.assign
        rw [ho]
      rw [ha]
      exact ⟨_, rfl⟩
  · intro hin hl hnone
    unfold TaskAssign.assign_input
    rw [if_pos hin]
    have hc : TaskFileOwners.check ts.inputs_ownership fname fi.owner = Except.ok () := by
      simp [TaskFileOwners.check, hl]
    have ha : TaskFiles.assign ts.assigned_inputs fname fi =
        Except.ok ((fname, fi) :: ts.assigned_inputs) := by
      unfold TaskFiles.assign
      rw [hnone]
    rw [hc, ha]
  · intro e he
    by_cases hro : r ∈ fi.owner
    · rcases hc : TaskFileOwners.check ts.inputs_ownership fname fi.owner with er | u
      · unfold TaskAssign.assign_input
        rw [if_pos hro, hc]
      · rcases ha : TaskFiles.assign ts.assigned_inputs fname fi with er | m
        · unfold TaskAssign.assign_input
          rw [if_pos hro, hc, ha]
        · exfalso
          unfold TaskAssign.assign_input at he
          rw [if_pos hro, hc, ha] at he
          exact Except.noConfusion he
    · unfold TaskAssign.assign_input
      rw [if_neg hro]
  · intro hno
    refine ⟨". " ++ fo.external_id ++ ".", ?_⟩
    unfold TaskAssign.assign_output
    rw [if_neg hno, ownerListMsg_decomp]
  · intro hin hne
    unfold TaskAssign.assign_output
    rw [if_pos hin]
    rcases hl : lookupName fname ts.outputs_ownership with _ | d
    · have hc : TaskFileOwners.check ts.outputs_ownership fname fo.owner =
          Except.error ("Assign: file name not declared. " ++ fname) := by
        unfold TaskFileOwners.check
        rw [hl]
      rw [hc]
      exact ⟨_, rfl⟩
    · have hd : d ≠ fo.owner := fun he => hne (by rw [hl, he])
      have hc : TaskFileOwners.check ts.outputs_ownership fname fo.owner =
          Except.error ("Assign: file ownership mismatch. " ++ fname) := by
        simp [TaskFileOwners.check, hl, hd]
      rw [hc]
      exact ⟨_, rfl⟩
  · intro hin hl hne
    unfold TaskAssign.assign_output
    rw [if_pos hin]
    have hc : TaskFileOwners.check ts.outputs_ownership fname fo.owner = Except.ok () := by
      simp [TaskFileOwners.check, hl]
    rw [hc]
    rcases ho : lookupName fname ts.assigned_outputs with _ | v
    · exact absurd ho hne
    · have ha : TaskFiles.assign ts.assigned_outputs fname fo =
          Except.error ("Assign: file name already assigned. " ++ fname) := by
        unfold TaskFiles.assign
        rw [ho]
      rw [ha]
      exact ⟨_, rfl⟩
  · intro hin hl hnone
    unfold TaskAssign.assign_output
    rw [if_pos hin]
    have hc : TaskFileOwners.check ts.outputs_ownership fname fo.owner = Except.ok () := by
      simp [TaskFileOwners.check, hl]
    have ha : TaskFiles.assign ts.assigned_outputs fname fo =
        Except.ok ((fname, fo) :: ts.assigned_outputs) := by
      unfold TaskFiles.assign
      rw [hnone]
    rw [hc, ha]
  · intro e he
    by_cases hro : r ∈ fo.owner
    · rcases hc : TaskFileOwners.check ts.outputs_ownership fname fo.owner with er | u
      · unfold TaskAssign.assign_output
        rw [if_pos hro, hc]
      · rcases ha : TaskFiles.assign ts.assigned_outputs fname fo with er | m
        · unfold TaskAssign.assign_output
          rw [if_pos hro, hc, ha]
        · exfalso
          unfold TaskAssign.assign_output at he
          rw [if_pos hro, hc, ha] at he
          exact Except.noConfusion he
    · unfold TaskAssign.assign_output
      rw [if_neg hro]

/-- Witness for C6: a non-owner requester is rejected. -/
theorem c6_assign_checks_witness :
    ∃ s, TaskAssign.assign_input tsIn "alice" "in" fileBob =
      (tsIn, Except.error ("Assign: " ++ "requester is not in the owner list" ++ s)) :=
  (c6_assign_checks tsIn "alice" "in" fileBob outAlice).1 (by decide)
